import Mathlib

/-!
Verification development for the TextToSpanishAudio repository
(src/app.py and src/sermon_worker.py), as a shallow embedding in Lean 4.

Text is modelled as `List Char`; the SQLite `sermons` table as a `List Job`;
the filesystem of audio artifacts as a `List AudioPath`; the TTS engine as an
oracle `EngineKind → List Char → SynthOutcome`.  Worker behaviour is recorded
as an explicit event trace.
-/

set_option maxRecDepth 8000

namespace SermonTTS

/-! ## Text primitives (Python `str.split('.')` and `str.strip()`) -/

/-- Python's `text.split('.')` on a character list: `"".split('.') = ['']`,
separators at the ends produce empty pieces. -/
def splitOnDot : List Char → List (List Char)
  | [] => [[]]
  | c :: rest =>
    if c = '.' then [] :: splitOnDot rest
    else
      match splitOnDot rest with
      | [] => [[c]]
      | p :: ps => (c :: p) :: ps

/-- Python's default whitespace set for `str.strip()`:
space, tab, newline, carriage return, vertical tab, form feed. -/
def isPySpace (c : Char) : Bool :=
  c = ' ' || c = '\t' || c = '\n' || c = '\r' || c.toNat = 11 || c.toNat = 12

/-- Python `str.strip()`: drop leading and trailing whitespace. -/
def pyStrip (l : List Char) : List Char :=
  ((l.dropWhile isPySpace).reverse.dropWhile isPySpace).reverse

/-! ## Segmentation (sermon_worker.py, `synthesize_text`, lines 63-79) -/

/-- `max_chars = 1000` in `synthesize_text`. -/
def max_chars : Nat := 1000

/-- The segment-building loop of `synthesize_text` over the pieces of
`text.split('.')`: strip each piece, skip empty ones, append the period back,
and greedily pack (the length check `len(current_segment) + len(sentence) <= max_chars`
ignores the joining space; the non-empty join is
`f"{current_segment} {sentence}".strip()`).  In the overflow branch the current
segment is appended unconditionally (even when it is still empty), and a final
non-empty segment is appended at the end. -/
def buildSegments (m : Nat) : List (List Char) → List Char → List (List Char)
  | [], cur => if cur.isEmpty then [] else [cur]
  | s :: rest, cur =>
    let s' := pyStrip s
    if s'.isEmpty then buildSegments m rest cur
    else
      let sent := s' ++ ['.']
      if cur.length + sent.length ≤ m then
        buildSegments m rest (if cur.isEmpty then sent else pyStrip (cur ++ [' '] ++ sent))
      else
        cur :: buildSegments m rest sent

/-- The chunk list `segments` computed by `synthesize_text` for a long text. -/
def segmentText (text : List Char) : List (List Char) :=
  buildSegments max_chars (splitOnDot text) []

/-- The cleaned sentence list: the pieces of `text.split('.')`, stripped,
empty ones dropped, each with its period appended back.  (This is what the
segment-building loop actually consumes.) -/
def pySentences (text : List Char) : List (List Char) :=
  (splitOnDot text).filterMap (fun s =>
    let s' := pyStrip s
    if s'.isEmpty then none else some (s' ++ ['.']))

/-- Greedy packing of an already-cleaned sentence list, mirroring the spec's
description of segmentation ("greedily pack consecutive segments into chunks,
preserving original order") with the code's actual acceptance test
`cur.length + sent.length ≤ m`. -/
def packGreedy (m : Nat) : List (List Char) → List Char → List (List Char)
  | [], cur => if cur.isEmpty then [] else [cur]
  | sent :: rest, cur =>
    if cur.length + sent.length ≤ m then
      packGreedy m rest (if cur.isEmpty then sent else pyStrip (cur ++ [' '] ++ sent))
    else
      cur :: packGreedy m rest sent

/-! ## Jobs, engine, events -/

/-- Job status column (`'pending'` default; the worker writes `'error'` or
`'complete'`). -/
inductive Status
  | pending
  | complete
  | error
  deriving DecidableEq, Repr

/-- Paths in the audio directory: the final output
`AUDIO_DIR/{guid}.mp3` and the temporary chunk files
`output_file + ".part{i}.mp3"`. -/
inductive AudioPath
  | final (guid : String)
  | part (guid : String) (i : Nat)
  deriving DecidableEq, Repr

/-- A row of the `sermons` table (app.py `init_db`).  `id` is the
`INTEGER PRIMARY KEY`; `guid` carries the `UNIQUE` constraint. -/
structure Job where
  id : Nat
  guid : String
  transcription : List Char
  status : Status
  audio_file : Option AudioPath
  finished_at : Option Nat
  created_at : Nat
  deriving DecidableEq, Repr

/-- Execution context for the TTS engine: `TTS(..., gpu=True)` is the only
handle the worker ever constructs; `cpu` exists to express the spec's fallback
handle. -/
inductive EngineKind
  | gpu
  | cpu
  deriving DecidableEq, Repr

/-- Outcome of one `tts.tts_to_file` call: success, a CUDA out-of-memory
condition (resource exhaustion), or any other engine failure. -/
inductive SynthOutcome
  | ok
  | oom
  | err
  deriving DecidableEq, Repr

/-- The Python exception escaping `synthesize_text`. -/
inductive ExcKind
  | resourceExhausted
  | engineError
  | combineError
  deriving DecidableEq, Repr

/-- Observable actions of the worker, in program order.  `reclaim` stands for
the `gc.collect(); torch.cuda.empty_cache()` pair.  `construct`/`release`
model `TTS(NORMAL_MODEL_ID, gpu=True)` construction and
`unload_normal_model` (the latter is never invoked by
`process_pending_jobs` or the background loop). -/
inductive WorkerEvent
  | construct (k : EngineKind)
  | release
  | attempt (k : EngineKind) (text : List Char) (path : AudioPath)
  | combine (n : Nat)
  | removeTemp (i : Nat)
  | reclaim
  | markError (id : Nat)
  | markComplete (id : Nat) (t : Nat)
  deriving DecidableEq, Repr

/-- Does the event construct or use the spec's fallback (non-accelerated)
handle? -/
def mentionsFallback : WorkerEvent → Bool
  | WorkerEvent.construct k => k == EngineKind.cpu
  | WorkerEvent.attempt k _ _ => k == EngineKind.cpu
  | _ => false

/-- Is the event a release of the engine handle? -/
def isRelease : WorkerEvent → Bool
  | WorkerEvent.release => true
  | _ => false

/-! ## Synthesis pipeline (sermon_worker.py, `combine_audio_files` and
`synthesize_text`) -/

/-- `combine_audio_files` (lines 40-56): folds the input files into `combined`
(initially `None`) and calls `combined.export(...)`.  With an empty file list
`combined` is still `None` and the `.export` call raises
(`AttributeError` on `None`); otherwise the export succeeds. -/
def combine_audio_files (files : List AudioPath) : Option Unit :=
  match files with
  | [] => none
  | _ :: _ => some ()

/-- The per-chunk loop of `synthesize_text` (lines 81-87): synthesize chunk
`i` to `output_file + ".part{i}.mp3"`, then `gc.collect()` and
`torch.cuda.empty_cache()`.  A raising call aborts the loop; the exception
propagates. -/
def runSegments (k : EngineKind) (oracle : EngineKind → List Char → SynthOutcome)
    (guid : String) : Nat → List (List Char) → List WorkerEvent × Option ExcKind
  | _, [] => ([], none)
  | i, s :: rest =>
    match oracle k s with
    | SynthOutcome.ok =>
      let r := runSegments k oracle guid (i + 1) rest
      (WorkerEvent.attempt k s (AudioPath.part guid i) :: WorkerEvent.reclaim :: r.1, r.2)
    | SynthOutcome.oom =>
      ([WorkerEvent.attempt k s (AudioPath.part guid i)], some ExcKind.resourceExhausted)
    | SynthOutcome.err =>
      ([WorkerEvent.attempt k s (AudioPath.part guid i)], some ExcKind.engineError)

/-- `synthesize_text` (lines 58-93): above the threshold, build `segments`,
synthesize each to a temporary file, combine, then remove the temporaries;
at or below the threshold, one direct call to the final output path.
Returns the event trace and the escaping exception, if any. -/
def synthesizeText (k : EngineKind) (oracle : EngineKind → List Char → SynthOutcome)
    (guid : String) (text : List Char) : List WorkerEvent × Option ExcKind :=
  if max_chars < text.length then
    let segs := segmentText text
    let r := runSegments k oracle guid 0 segs
    match r.2 with
    | some e => (r.1, some e)
    | none =>
      match combine_audio_files ((List.range segs.length).map (AudioPath.part guid)) with
      | none => (r.1, some ExcKind.combineError)
      | some _ =>
        (r.1 ++ [WorkerEvent.combine segs.length]
             ++ (List.range segs.length).map WorkerEvent.removeTemp, none)
  else
    (WorkerEvent.attempt k text (AudioPath.final guid) :: [],
     match oracle k text with
     | SynthOutcome.ok => none
     | SynthOutcome.oom => some ExcKind.resourceExhausted
     | SynthOutcome.err => some ExcKind.engineError)

/-! ## Worker (sermon_worker.py, `TTSModelSingleton` and
`process_pending_jobs`) -/

/-- `TTSModelSingleton.get_instance`: construct `TTS(NORMAL_MODEL_ID,
gpu=True)` when `_instance is None`, otherwise reuse the cached handle.
Returns the handle used, the new cached state, and the construction events. -/
def getInstance (eng : Option EngineKind) :
    EngineKind × Option EngineKind × List WorkerEvent :=
  match eng with
  | none => (EngineKind.gpu, some EngineKind.gpu, [WorkerEvent.construct EngineKind.gpu])
  | some k => (k, some k, [])

/-- The body of the per-job loop of `process_pending_jobs` (lines 131-155):
get the singleton handle, run `synthesize_text`; on any exception set
`status = 'error'` (nothing else) and `continue`; on success set
`status = 'complete'`, `finished_at`, `audio_file`, then `gc.collect()` and
`torch.cuda.empty_cache()`. -/
def processJob (oracle : EngineKind → List Char → SynthOutcome)
    (eng : Option EngineKind) (now : Nat) (job : Job) :
    Job × Option EngineKind × List WorkerEvent :=
  let gi := getInstance eng
  let sr := synthesizeText gi.1 oracle job.guid job.transcription
  match sr.2 with
  | some _ =>
    ({ job with status := Status.error },
     gi.2.1,
     gi.2.2 ++ sr.1 ++ [WorkerEvent.markError job.id])
  | none =>
    ({ job with status := Status.complete,
                audio_file := some (AudioPath.final job.guid),
                finished_at := some now },
     gi.2.1,
     gi.2.2 ++ sr.1 ++ [WorkerEvent.markComplete job.id now, WorkerEvent.reclaim])

/-- `process_pending_jobs`: snapshot of the pending jobs processed
sequentially (rows with another status pass through unchanged), threading the
singleton handle state and concatenating the traces. -/
def processPendingJobs (oracle : EngineKind → List Char → SynthOutcome) :
    Option EngineKind → Nat → List Job → List Job × Option EngineKind × List WorkerEvent
  | eng, _, [] => ([], eng, [])
  | eng, now, j :: rest =>
    if j.status = Status.pending then
      let r := processJob oracle eng now j
      let rs := processPendingJobs oracle r.2.1 now rest
      (r.1 :: rs.1, rs.2.1, r.2.2 ++ rs.2.2)
    else
      let rs := processPendingJobs oracle eng now rest
      (j :: rs.1, rs.2.1, rs.2.2)

/-! ## Retention purge (sermon_worker.py `purge_old_jobs`,
app.py `purge_old_jobs`) -/

/-- The SQL age filter `finished_at <= ?`.  In SQLite a `NULL`
`finished_at` compares to `NULL`, which is not true, so a row with
`finished_at = NULL` never matches. -/
def oldEnough (thr : Nat) (j : Job) : Bool :=
  match j.finished_at with
  | some t => decide (t ≤ thr)
  | none => false

/-- The SQL status filter `status IN ('complete', 'error')`. -/
def isTerminalB (j : Job) : Bool :=
  j.status == Status.complete || j.status == Status.error

/-- The rows returned by
`SELECT ... FROM sermons WHERE (status IN ('complete', 'error')) AND finished_at <= ?`
(identical in both purge implementations). -/
def purgeSelected (thr : Nat) (jobs : List Job) : List Job :=
  jobs.filter (fun j => isTerminalB j && oldEnough thr j)

/-- Database table plus the set of audio files on disk. -/
structure PurgeState where
  jobs : List Job
  files : List AudioPath
  deriving DecidableEq, Repr

/-- The per-job loop of the worker's `purge_old_jobs` (lines 109-114):
if the job's audio file exists, `os.remove` it (unguarded — a failure raises
out of the whole function); then buffer `DELETE FROM sermons WHERE id = ?`.
Returns the surviving files, the buffered deleted ids, and whether the loop
aborted on a file-removal failure. -/
def workerPurgeLoop (removeOk : AudioPath → Bool) :
    List Job → List AudioPath → List Nat → List AudioPath × List Nat × Bool
  | [], files, deleted => (files, deleted, false)
  | j :: rest, files, deleted =>
    match j.audio_file with
    | some p =>
      if p ∈ files then
        if removeOk p then
          workerPurgeLoop removeOk rest (files.erase p) (deleted ++ [j.id])
        else (files, deleted, true)
      else workerPurgeLoop removeOk rest files (deleted ++ [j.id])
    | none => workerPurgeLoop removeOk rest files (deleted ++ [j.id])

/-- The worker's `purge_old_jobs` (sermon_worker.py lines 95-118): select,
loop, then `conn.commit()`.  An `os.remove` failure raises into the outer
`except`, skipping the commit, so none of the buffered row deletions take
effect (file removals made before the failure are not transactional and
persist). -/
def workerPurge (removeOk : AudioPath → Bool) (thr : Nat) (st : PurgeState) :
    PurgeState :=
  let sel := purgeSelected thr st.jobs
  let out := workerPurgeLoop removeOk sel st.files []
  if out.2.2 then { jobs := st.jobs, files := out.1 }
  else
    { jobs := st.jobs.filter (fun j => decide (j.id ∉ out.2.1)),
      files := out.1 }

/-- The per-job loop of the app's `purge_old_jobs` (app.py lines 65-81):
the file removal is wrapped in its own `try`, a failure increments
`file_failures` and does not block the row deletion; the row deletion is
also individually guarded (modelled as always succeeding).  Returns the
surviving files, the deleted ids, and the failure count. -/
def appPurgeLoop (removeOk : AudioPath → Bool) :
    List Job → List AudioPath → List Nat → Nat → List AudioPath × List Nat × Nat
  | [], files, deleted, ff => (files, deleted, ff)
  | j :: rest, files, deleted, ff =>
    match j.audio_file with
    | some p =>
      if p ∈ files then
        if removeOk p then
          appPurgeLoop removeOk rest (files.erase p) (deleted ++ [j.id]) ff
        else appPurgeLoop removeOk rest files (deleted ++ [j.id]) (ff + 1)
      else appPurgeLoop removeOk rest files (deleted ++ [j.id]) ff
    | none => appPurgeLoop removeOk rest files (deleted ++ [j.id]) ff

/-- Result of the app's purge: new state plus the reported aggregate counts. -/
structure AppPurgeOut where
  state : PurgeState
  purged : Nat
  fileFailures : Nat
  deriving DecidableEq, Repr

/-- The app's `purge_old_jobs` (app.py lines 50-91): select, loop with
per-job error isolation, then `db.commit()` (reached in the normal flow, so
all buffered row deletions take effect). -/
def appPurge (removeOk : AudioPath → Bool) (thr : Nat) (st : PurgeState) :
    AppPurgeOut :=
  let sel := purgeSelected thr st.jobs
  let out := appPurgeLoop removeOk sel st.files [] 0
  { state :=
      { jobs := st.jobs.filter (fun j => decide (j.id ∉ out.2.1)),
        files := out.1 },
    purged := out.2.1.length,
    fileFailures := out.2.2 }

/-! ## Submission endpoint (app.py `submit_sermon`, lines 100-132) -/

/-- HTTP responses of the `/sermon` POST endpoint. -/
inductive SubmitResp
  | created201
  | conflict409
  | error500
  | badRequest400
  deriving DecidableEq, Repr

/-- `INSERT INTO sermons ...` against the store-level `UNIQUE` constraint on
`sermon_guid`: `none` is the raised `IntegrityError`. -/
def dbInsert (jobs : List Job) (nextId : Nat) (guid : String)
    (tr : List Char) : Option (List Job) :=
  if jobs.any (fun j => j.guid == guid) then none
  else some (jobs ++ [{ id := nextId, guid := guid, transcription := tr,
                        status := Status.pending, audio_file := none,
                        finished_at := none, created_at := 0 }])

/-- `submit_sermon` run without interleaving: validate, pre-check
`SELECT id FROM sermons WHERE sermon_guid = ?` (duplicate gives 409), then
insert.  An `IntegrityError` from the insert would land in the generic
`except`, which returns 500. -/
def submitSermon (jobs : List Job) (nextId : Nat) (guid : String)
    (tr : List Char) : List Job × SubmitResp :=
  if guid.isEmpty || tr.isEmpty then (jobs, SubmitResp.badRequest400)
  else if jobs.any (fun j => j.guid == guid) then (jobs, SubmitResp.conflict409)
  else
    match dbInsert jobs nextId guid tr with
    | some jobs' => (jobs', SubmitResp.created201)
    | none => (jobs, SubmitResp.error500)

/-- Two concurrent `submit_sermon` calls for the same guid, interleaved as
pre-check A, pre-check B (both against the initial table), insert A, insert B.
Validation happens before any store access and is per-request. -/
def submitRace (jobs0 : List Job) (nextId : Nat) (guid : String)
    (trA trB : List Char) : List Job × SubmitResp × SubmitResp :=
  if guid.isEmpty || trA.isEmpty || trB.isEmpty then
    (jobs0, SubmitResp.badRequest400, SubmitResp.badRequest400)
  else
    let preA := jobs0.any (fun j => j.guid == guid)
    let preB := jobs0.any (fun j => j.guid == guid)
    let stepA : List Job × SubmitResp :=
      if preA then (jobs0, SubmitResp.conflict409)
      else
        match dbInsert jobs0 nextId guid trA with
        | some js => (js, SubmitResp.created201)
        | none => (jobs0, SubmitResp.error500)
    let stepB : List Job × SubmitResp :=
      if preB then (stepA.1, SubmitResp.conflict409)
      else
        match dbInsert stepA.1 (nextId + 1) guid trB with
        | some js => (js, SubmitResp.created201)
        | none => (stepA.1, SubmitResp.error500)
    (stepB.1, stepA.2, stepB.2)

/-! ## Concrete fixtures used by counterexamples, demos and witnesses -/

/-- A short transcription (below the chunk threshold). -/
def holaText : List Char := ['H', 'o', 'l', 'a', '.']

/-- A second short transcription. -/
def mundoText : List Char := ['M', 'u', 'n', 'd', 'o', '.']

/-- Engine oracle for the exhaustion scenario: the accelerated handle runs
out of memory on `holaText` and succeeds elsewhere; the fallback handle
always succeeds. -/
def c1oracle : EngineKind → List Char → SynthOutcome :=
  fun k t =>
    match k with
    | EngineKind.cpu => SynthOutcome.ok
    | EngineKind.gpu => if t = holaText then SynthOutcome.oom else SynthOutcome.ok

/-- Pending job whose synthesis hits resource exhaustion under `c1oracle`. -/
def c1job : Job :=
  { id := 1, guid := "g1", transcription := holaText, status := Status.pending,
    audio_file := none, finished_at := none, created_at := 0 }

/-- A second pending job, processed after `c1job`. -/
def c1job2 : Job :=
  { id := 2, guid := "g2", transcription := mundoText, status := Status.pending,
    audio_file := none, finished_at := none, created_at := 0 }

/-- Engine oracle that always fails with a non-exhaustion engine error. -/
def errOracle : EngineKind → List Char → SynthOutcome :=
  fun _ _ => SynthOutcome.err

/-- Engine oracle that always succeeds. -/
def okOracle : EngineKind → List Char → SynthOutcome :=
  fun _ _ => SynthOutcome.ok

/-- Pending job whose synthesis raises an engine error under `errOracle`. -/
def c2job : Job :=
  { id := 3, guid := "g3", transcription := holaText, status := Status.pending,
    audio_file := none, finished_at := none, created_at := 0 }

/-- A 1011-character transcription of three sentences of lengths 500, 500
and 11 (periods included). -/
def c5text : List Char :=
  List.replicate 499 'a' ++ ['.'] ++ List.replicate 499 'b' ++ ['.']
    ++ List.replicate 10 'c' ++ ['.']

/-- A 1202-character transcription of two sentences of length 601 each. -/
def c5wtext : List Char :=
  List.replicate 600 'a' ++ ['.'] ++ List.replicate 600 'b' ++ ['.']

/-- Terminal job with an on-disk artifact. -/
def c6job1 : Job :=
  { id := 1, guid := "a", transcription := [], status := Status.complete,
    audio_file := some (AudioPath.final "a"), finished_at := some 0, created_at := 0 }

/-- Terminal job without an artifact. -/
def c6job2 : Job :=
  { id := 2, guid := "b", transcription := [], status := Status.error,
    audio_file := none, finished_at := some 0, created_at := 0 }

/-- Purge state where both jobs are selected and `c6job1`'s artifact exists. -/
def c6st : PurgeState :=
  { jobs := [c6job1, c6job2], files := [AudioPath.final "a"] }

/-- File-removal oracle where every `os.remove` raises. -/
def removeFails : AudioPath → Bool := fun _ => false

/-- File-removal oracle where every `os.remove` succeeds. -/
def removeWorks : AudioPath → Bool := fun _ => true

/-- An aged pending job (old `created_at`, no `finished_at`). -/
def c8pending : Job :=
  { id := 5, guid := "p", transcription := holaText, status := Status.pending,
    audio_file := none, finished_at := none, created_at := 0 }

/-- Purge state mixing an old terminal job and an old pending job. -/
def c8st : PurgeState :=
  { jobs := [c6job1, c8pending], files := [AudioPath.final "a"] }

/-- A transcription of 1100 consecutive periods: longer than the threshold
but with no non-empty sentence. -/
def c10text : List Char := List.replicate 1100 '.'

/-- Pending job with the all-periods transcription. -/
def c10job : Job :=
  { id := 4, guid := "g4", transcription := c10text, status := Status.pending,
    audio_file := none, finished_at := none, created_at := 0 }

/-! ## Claim theorems: closed counterexamples and demonstrations -/

/-- Claim C1 (counterexample).  A job whose synthesis call signals resource
exhaustion while the fallback context would succeed: the worker marks it
`error` directly; the trace contains no handle release, no fallback
construction and no fallback attempt, and the next job is processed on the
still-cached accelerated handle.  This contradicts the claimed
release/fallback/retry protocol ("the job is marked error only if the
fallback retry also fails"). -/
theorem C1_counterexample :
    (synthesizeText EngineKind.gpu c1oracle c1job.guid c1job.transcription).2
        = some ExcKind.resourceExhausted
  ∧ c1oracle EngineKind.cpu c1job.transcription = SynthOutcome.ok
  ∧ (processPendingJobs c1oracle (some EngineKind.gpu) 0 [c1job, c1job2]).1.map Job.status
        = [Status.error, Status.complete]
  ∧ (processPendingJobs c1oracle (some EngineKind.gpu) 0 [c1job, c1job2]).2.2.all
        (fun e => !(mentionsFallback e || isRelease e)) = true := by
  decide

/-- Claim C2 (bug demonstration).  A job the worker marks `error` has
`finished_at` still `NULL`: the `UPDATE` on the error path (sermon_worker.py
line 142) writes only the status. -/
theorem C2_bug_demo :
    (processJob errOracle (some EngineKind.gpu) 7 c2job).1.status = Status.error
  ∧ (processJob errOracle (some EngineKind.gpu) 7 c2job).1.finished_at = none := by
  decide

/-- Claim C4 (counterexample).  Two creates for the same guid racing past the
pre-check: the store's `UNIQUE` constraint keeps a single record, but the
loser's `IntegrityError` is caught by the generic handler and surfaced as
500, not as the claimed 409. -/
theorem C4_counterexample :
    (submitRace [] 1 "g1" holaText holaText).2.1 = SubmitResp.created201
  ∧ (submitRace [] 1 "g1" holaText holaText).2.2 = SubmitResp.error500
  ∧ (submitRace [] 1 "g1" holaText holaText).2.2 ≠ SubmitResp.conflict409
  ∧ (submitRace [] 1 "g1" holaText holaText).1.map Job.guid = ["g1"] := by
  decide

/-- Claim C5 (counterexample).  A 1011-character text of sentences of lengths
500, 500 and 11: the greedy packer's acceptance test ignores the joining
space, so the first chunk has 1001 characters — exceeding the 1000-character
threshold. -/
theorem C5_counterexample :
    max_chars < c5text.length
  ∧ (segmentText c5text).map List.length = [1001, 11]
  ∧ (segmentText c5text).any (fun s => decide (max_chars < s.length)) = true := by
  decide

/-- Claim C6 (counterexample).  In the worker's purge, the very first job's
artifact-removal failure raises out of the whole function before the commit:
neither that job's record nor any remaining selected job's record is deleted,
although both were selected. -/
theorem C6_counterexample :
    c6job1 ∈ purgeSelected 10 c6st.jobs
  ∧ c6job2 ∈ purgeSelected 10 c6st.jobs
  ∧ (workerPurge removeFails 10 c6st).jobs = c6st.jobs := by
  decide

/-- Claim C7 (counterexample).  A job that ends in `error`: the `continue` on
the error path (sermon_worker.py line 144) skips the
`gc.collect(); torch.cuda.empty_cache()` pass, so no memory-reclamation event
occurs for this job at all. -/
theorem C7_counterexample :
    (processJob errOracle (some EngineKind.gpu) 0 c2job).1.status = Status.error
  ∧ WorkerEvent.reclaim ∉ (processJob errOracle (some EngineKind.gpu) 0 c2job).2.2 := by
  decide

/-- Claim C10.  1100 consecutive periods: the text exceeds the threshold but
yields no non-empty sentence, segmentation returns the empty chunk list,
`combine_audio_files` is invoked on an empty file list and raises
(`combined` stays `None`), and the job ends in `error`. -/
theorem C10_empty_sentence_input :
    max_chars < c10text.length
  ∧ segmentText c10text = []
  ∧ combine_audio_files ([] : List AudioPath) = none
  ∧ (synthesizeText EngineKind.gpu okOracle c10job.guid c10job.transcription).2
        = some ExcKind.combineError
  ∧ (processJob okOracle (some EngineKind.gpu) 0 c10job).1.status = Status.error := by
  decide

/-! ## Segmentation lemmas and claims C5, C9 -/

/-- Stripping never lengthens a string. -/
theorem pyStrip_length_le (l : List Char) : (pyStrip l).length ≤ l.length := by
  unfold pyStrip
  calc ((l.dropWhile isPySpace).reverse.dropWhile isPySpace).reverse.length
      = ((l.dropWhile isPySpace).reverse.dropWhile isPySpace).length :=
        List.length_reverse _
    _ ≤ (l.dropWhile isPySpace).reverse.length :=
        (List.dropWhile_sublist _).length_le
    _ = (l.dropWhile isPySpace).length := List.length_reverse _
    _ ≤ l.length := (List.dropWhile_sublist _).length_le

/-- The segment-building loop over the raw `split('.')` pieces equals greedy
packing of the cleaned sentence list: stripping and empty-piece skipping
commute with the packing. -/
theorem buildSegments_eq_pack (m : Nat) :
    ∀ (raw : List (List Char)) (cur : List Char),
      buildSegments m raw cur =
        packGreedy m (raw.filterMap (fun s =>
          let s' := pyStrip s
          if s'.isEmpty then none else some (s' ++ ['.']))) cur := by
  intro raw
  induction raw with
  | nil => intro cur; rfl
  | cons s rest ih =>
    intro cur
    by_cases h : pyStrip s = []
    · simp [buildSegments, List.filterMap_cons, h, ih]
    · simp [buildSegments, List.filterMap_cons, h, packGreedy, ih]

/-- `segmentText` is greedy packing of the sentence list. -/
theorem segmentText_eq_pack (text : List Char) :
    segmentText text = packGreedy max_chars (pySentences text) [] :=
  buildSegments_eq_pack max_chars (splitOnDot text) []

/-- If every sentence fits in `m` characters and the current segment has at
most `m + 1`, every produced chunk has at most `m + 1` characters (the
acceptance test `cur.length + sent.length ≤ m` ignores the joining space, so
a chunk can end up one character over `m`). -/
theorem packGreedy_chunk_le (m : Nat) :
    ∀ (sents : List (List Char)) (cur : List Char),
      (∀ s ∈ sents, s.length ≤ m) → cur.length ≤ m + 1 →
      ∀ c ∈ packGreedy m sents cur, c.length ≤ m + 1 := by
  intro sents
  induction sents with
  | nil =>
    intro cur _ hcur c hc
    by_cases h : cur = []
    · simp [packGreedy, h] at hc
    · simp [packGreedy, h] at hc
      exact hc ▸ hcur
  | cons sent rest ih =>
    intro cur hs hcur c hc
    have hsent : sent.length ≤ m := hs sent (List.mem_cons_self sent rest)
    have hrest : ∀ s ∈ rest, s.length ≤ m :=
      fun s hs' => hs s (List.mem_cons_of_mem sent hs')
    simp only [packGreedy] at hc
    by_cases hle : cur.length + sent.length ≤ m
    · rw [if_pos hle] at hc
      refine ih _ hrest ?_ c hc
      by_cases hemp : cur.isEmpty = true
      · simpa [hemp] using Nat.le_succ_of_le hsent
      · simp only [hemp, if_false]
        calc (pyStrip (cur ++ [' '] ++ sent)).length
            ≤ (cur ++ [' '] ++ sent).length := pyStrip_length_le _
          _ ≤ m + 1 := by
              simp only [List.length_append, List.length_singleton]
              omega
    · rw [if_neg hle] at hc
      rcases List.mem_cons.mp hc with hceq | hc'
      · exact hceq ▸ hcur
      · exact ih sent hrest (Nat.le_succ_of_le hsent) c hc'

/-- Claim C5 (amended).  For a long text, segmentation splits on periods,
strips the pieces, drops empty ones, and greedily packs the resulting
sentences in their original order; a sentence is appended to the current
chunk when current length + sentence length is at most 1000, joined with one
space, so a chunk can reach 1001 characters; when every individual sentence
fits in 1000 characters every chunk has at most 1001. -/
theorem C5_amended (text : List Char) (hlong : max_chars < text.length)
    (hs : ∀ s ∈ pySentences text, s.length ≤ max_chars) :
    segmentText text = packGreedy max_chars (pySentences text) []
  ∧ ∀ c ∈ segmentText text, c.length ≤ max_chars + 1 := by
  refine ⟨segmentText_eq_pack text, ?_⟩
  intro c hc
  rw [segmentText_eq_pack text] at hc
  exact packGreedy_chunk_le max_chars (pySentences text) [] hs (by simp) c hc

/-- Witness for the amended C5 on a 1202-character, two-sentence text. -/
theorem C5_amended_witness :
    (max_chars < c5wtext.length ∧ ∀ s ∈ pySentences c5wtext, s.length ≤ max_chars)
  ∧ ∀ c ∈ segmentText c5wtext, c.length ≤ max_chars + 1 :=
  ⟨⟨by decide, by decide⟩, (C5_amended c5wtext (by decide) (by decide)).2⟩

/-- Claim C9.  A transcription at or below the 1000-character threshold:
`synthesize_text` makes exactly one synthesis call, aimed directly at the
final output path — no chunk synthesis, no combine, no temporary files — and
the call succeeds exactly when the engine call does. -/
theorem C9_short_text (k : EngineKind) (oracle : EngineKind → List Char → SynthOutcome)
    (guid : String) (text : List Char) (h : text.length ≤ max_chars) :
    (synthesizeText k oracle guid text).1
        = [WorkerEvent.attempt k text (AudioPath.final guid)]
  ∧ ((synthesizeText k oracle guid text).2 = none ↔ oracle k text = SynthOutcome.ok) := by
  have hn : ¬ max_chars < text.length := Nat.not_lt.mpr h
  constructor
  · simp [synthesizeText, hn]
  · simp only [synthesizeText, if_neg hn]
    cases ho : oracle k text <;> simp [ho]

/-- Witness for C9 at a concrete five-character transcription. -/
theorem C9_short_text_witness :
    holaText.length ≤ max_chars
  ∧ (synthesizeText EngineKind.gpu okOracle "g" holaText).1
        = [WorkerEvent.attempt EngineKind.gpu holaText (AudioPath.final "g")] :=
  ⟨by decide, (C9_short_text EngineKind.gpu okOracle "g" holaText (by decide)).1⟩

/-! ## Worker trace lemmas and claims C7, C1, C2/C3 -/

/-- Claim C7 (amended).  The last worker action for a job depends on the
outcome: a successful job ends with the `gc.collect(); torch.cuda.empty_cache()`
reclamation pass, while a failed job ends with the error status update — the
`continue` on the error path skips the reclamation pass. -/
theorem C7_amended (oracle : EngineKind → List Char → SynthOutcome)
    (eng : Option EngineKind) (now : Nat) (job : Job) :
    (processJob oracle eng now job).2.2.getLast? =
      some (match (synthesizeText (getInstance eng).1 oracle job.guid job.transcription).2 with
        | some _ => WorkerEvent.markError job.id
        | none => WorkerEvent.reclaim) := by
  cases hr : (synthesizeText (getInstance eng).1 oracle job.guid job.transcription).2 with
  | some e =>
    simp only [processJob, hr]
    exact List.getLast?_concat _
  | none =>
    simp only [processJob, hr]
    rw [show [WorkerEvent.markComplete job.id now, WorkerEvent.reclaim]
          = [WorkerEvent.markComplete job.id now] ++ [WorkerEvent.reclaim] from rfl,
        ← List.append_assoc]
    exact List.getLast?_concat _

/-- The chunk loop on the accelerated handle emits no fallback construction,
no fallback attempt and no handle release. -/
theorem runSegments_no_fallback (oracle : EngineKind → List Char → SynthOutcome)
    (guid : String) :
    ∀ (segs : List (List Char)) (i : Nat) (e : WorkerEvent),
      e ∈ (runSegments EngineKind.gpu oracle guid i segs).1 →
      mentionsFallback e = false ∧ isRelease e = false := by
  intro segs
  induction segs with
  | nil => intro i e he; simp [runSegments] at he
  | cons s rest ih =>
    intro i e he
    cases ho : oracle EngineKind.gpu s <;> simp [runSegments, ho] at he
    · rcases he with he | he | he
      · subst he; exact ⟨rfl, rfl⟩
      · subst he; exact ⟨rfl, rfl⟩
      · exact ih (i + 1) e he
    · subst he; exact ⟨rfl, rfl⟩
    · subst he; exact ⟨rfl, rfl⟩

/-- `synthesize_text` on the accelerated handle emits no fallback
construction, no fallback attempt and no handle release. -/
theorem synth_no_fallback (oracle : EngineKind → List Char → SynthOutcome)
    (guid : String) (text : List Char) (e : WorkerEvent)
    (he : e ∈ (synthesizeText EngineKind.gpu oracle guid text).1) :
    mentionsFallback e = false ∧ isRelease e = false := by
  by_cases h : max_chars < text.length
  · simp only [synthesizeText, if_pos h] at he
    cases hr : (runSegments EngineKind.gpu oracle guid 0 (segmentText text)).2 with
    | some ex =>
      rw [hr] at he
      exact runSegments_no_fallback oracle guid (segmentText text) 0 e he
    | none =>
      rw [hr] at he
      cases hcmb : combine_audio_files
          ((List.range (segmentText text).length).map (AudioPath.part guid)) with
      | none =>
        rw [hcmb] at he
        exact runSegments_no_fallback oracle guid (segmentText text) 0 e he
      | some u =>
        rw [hcmb] at he
        simp only [List.mem_append] at he
        rcases he with (he | he) | he
        · exact runSegments_no_fallback oracle guid (segmentText text) 0 e he
        · rw [List.mem_singleton] at he; subst he; exact ⟨rfl, rfl⟩
        · rcases List.mem_map.mp he with ⟨i, _, hei⟩
          subst hei; exact ⟨rfl, rfl⟩
  · simp only [synthesizeText, if_neg h, List.mem_singleton] at he
    subst he; exact ⟨rfl, rfl⟩

/-- Claim C1 (amended).  When a synthesis call raises — resource exhaustion
included — the worker marks the job `error` immediately: no handle release,
no fallback-handle construction, no retry on another context; `finished_at`
is left untouched and the cached accelerated handle stays in place for the
next job. -/
theorem C1_amended (oracle : EngineKind → List Char → SynthOutcome) (now : Nat)
    (job : Job) (e : ExcKind)
    (h : (synthesizeText EngineKind.gpu oracle job.guid job.transcription).2 = some e) :
    (processJob oracle (some EngineKind.gpu) now job).1.status = Status.error
  ∧ (processJob oracle (some EngineKind.gpu) now job).1.finished_at = job.finished_at
  ∧ (processJob oracle (some EngineKind.gpu) now job).2.1 = some EngineKind.gpu
  ∧ ∀ ev ∈ (processJob oracle (some EngineKind.gpu) now job).2.2,
      mentionsFallback ev = false ∧ isRelease ev = false := by
  have hgi : getInstance (some EngineKind.gpu)
      = (EngineKind.gpu, some EngineKind.gpu, []) := rfl
  refine ⟨?_, ?_, ?_, ?_⟩
  · simp [processJob, hgi, h]
  · simp [processJob, hgi, h]
  · simp [processJob, hgi, h]
  · intro ev hev
    simp only [processJob, hgi, h, List.nil_append, List.mem_append] at hev
    rcases hev with hev | hev
    · exact synth_no_fallback oracle job.guid job.transcription ev hev
    · rw [List.mem_singleton] at hev; subst hev; exact ⟨rfl, rfl⟩

/-- Witness for the amended C1: concrete resource exhaustion under
`c1oracle`. -/
theorem C1_amended_witness :
    (synthesizeText EngineKind.gpu c1oracle c1job.guid c1job.transcription).2
        = some ExcKind.resourceExhausted
  ∧ (processJob c1oracle (some EngineKind.gpu) 0 c1job).1.status = Status.error
  ∧ (processJob c1oracle (some EngineKind.gpu) 0 c1job).2.1 = some EngineKind.gpu :=
  ⟨by decide,
   (C1_amended c1oracle 0 c1job ExcKind.resourceExhausted (by decide)).1,
   (C1_amended c1oracle 0 c1job ExcKind.resourceExhausted (by decide)).2.2.1⟩

/-! ## Purge lemmas and claims C8, C3, C6 -/

/-- Characterization of the purge `SELECT`: a row is selected exactly when
its status is terminal and its `finished_at` is non-`NULL` and at most the
threshold. -/
theorem mem_purgeSelected (thr : Nat) (jobs : List Job) (j : Job) :
    j ∈ purgeSelected thr jobs ↔
      j ∈ jobs ∧ (j.status = Status.complete ∨ j.status = Status.error)
        ∧ ∃ t, j.finished_at = some t ∧ t ≤ thr := by
  simp only [purgeSelected, List.mem_filter, Bool.and_eq_true, isTerminalB,
    Bool.or_eq_true, beq_iff_eq, oldEnough]
  cases hf : j.finished_at <;> simp [hf, and_assoc]

/-- The app purge loop deletes the record of every selected job, in order,
whatever the file-removal outcomes. -/
theorem appPurgeLoop_deleted (rm : AudioPath → Bool) :
    ∀ (sel : List Job) (files : List AudioPath) (d : List Nat) (ff : Nat),
      (appPurgeLoop rm sel files d ff).2.1 = d ++ sel.map Job.id := by
  intro sel
  induction sel with
  | nil => intro files d ff; simp [appPurgeLoop]
  | cons j rest ih =>
    intro files d ff
    cases hp : j.audio_file with
    | none => simp [appPurgeLoop, hp, ih]
    | some p =>
      by_cases hin : p ∈ files
      · by_cases hrm : rm p = true <;> simp [appPurgeLoop, hp, hin, hrm, ih]
      · simp [appPurgeLoop, hp, hin, ih]

/-- Every id the worker purge loop buffers for deletion comes from the
accumulator or from a selected job. -/
theorem workerPurgeLoop_deleted_sub (rm : AudioPath → Bool) :
    ∀ (sel : List Job) (files : List AudioPath) (d : List Nat) (x : Nat),
      x ∈ (workerPurgeLoop rm sel files d).2.1 → x ∈ d ∨ x ∈ sel.map Job.id := by
  intro sel
  induction sel with
  | nil => intro files d x hx; simp [workerPurgeLoop] at hx; exact Or.inl hx
  | cons j rest ih =>
    intro files d x hx
    have step : x ∈ d ++ [j.id] ∨ x ∈ rest.map Job.id → x ∈ d ∨ x ∈ (j :: rest).map Job.id := by
      intro h
      rcases h with h | h
      · rcases List.mem_append.mp h with h | h
        · exact Or.inl h
        · rw [List.mem_singleton] at h
          exact Or.inr (by simp [h])
      · exact Or.inr (by simp [h])
    cases hp : j.audio_file with
    | none =>
      simp only [workerPurgeLoop, hp] at hx
      exact step (ih files (d ++ [j.id]) x hx)
    | some p =>
      by_cases hin : p ∈ files
      · by_cases hrm : rm p = true
        · simp only [workerPurgeLoop, hp, if_pos hin, if_pos hrm] at hx
          exact step (ih (files.erase p) (d ++ [j.id]) x hx)
        · simp only [workerPurgeLoop, hp, if_pos hin, if_neg hrm] at hx
          exact Or.inl hx
      · simp only [workerPurgeLoop, hp, if_neg hin] at hx
        exact step (ih files (d ++ [j.id]) x hx)

/-- When every selected job's on-disk artifact is removable (or absent), the
worker purge loop never aborts and buffers the deletion of every selected
record. -/
theorem workerPurgeLoop_ok (rm : AudioPath → Bool) :
    ∀ (sel : List Job) (files : List AudioPath) (d : List Nat),
      (∀ j ∈ sel, ∀ p, j.audio_file = some p → p ∈ files → rm p = true) →
      (workerPurgeLoop rm sel files d).2.2 = false
      ∧ (workerPurgeLoop rm sel files d).2.1 = d ++ sel.map Job.id := by
  intro sel
  induction sel with
  | nil => intro files d _; simp [workerPurgeLoop]
  | cons j rest ih =>
    intro files d hfs
    have hrest : ∀ j' ∈ rest, ∀ p, j'.audio_file = some p → p ∈ files → rm p = true :=
      fun j' hj' p hp hin => hfs j' (List.mem_cons_of_mem j hj') p hp hin
    cases hp : j.audio_file with
    | none =>
      have h := ih files (d ++ [j.id]) hrest
      simp only [workerPurgeLoop, hp]
      exact ⟨h.1, by rw [h.2]; simp⟩
    | some p =>
      by_cases hin : p ∈ files
      · have hrm : rm p = true := hfs j (List.mem_cons_self j rest) p hp hin
        have hrest' : ∀ j' ∈ rest, ∀ q, j'.audio_file = some q →
            q ∈ files.erase p → rm q = true :=
          fun j' hj' q hq hqin => hrest j' hj' q hq (List.mem_of_mem_erase hqin)
        have h := ih (files.erase p) (d ++ [j.id]) hrest'
        simp only [workerPurgeLoop, hp, if_pos hin, if_pos hrm]
        exact ⟨h.1, by rw [h.2]; simp⟩
      · have h := ih files (d ++ [j.id]) hrest
        simp only [workerPurgeLoop, hp, if_neg hin]
        exact ⟨h.1, by rw [h.2]; simp⟩

/-- The app purge always commits the deletion of exactly the selected
records. -/
theorem appPurge_jobs_eq (rm : AudioPath → Bool) (thr : Nat) (st : PurgeState) :
    (appPurge rm thr st).state.jobs =
      st.jobs.filter (fun j =>
        decide (j.id ∉ (purgeSelected thr st.jobs).map Job.id)) := by
  simp only [appPurge]
  rw [appPurgeLoop_deleted rm (purgeSelected thr st.jobs) st.files [] 0]
  simp

/-- An unselected job with a unique id cannot have its id buffered for
deletion. -/
theorem id_not_in_selected (thr : Nat) (st : PurgeState) (j : Job)
    (hid : (st.jobs.map Job.id).Nodup) (hj : j ∈ st.jobs)
    (hns : j ∉ purgeSelected thr st.jobs) :
    j.id ∉ (purgeSelected thr st.jobs).map Job.id := by
  intro hmem
  rcases List.mem_map.mp hmem with ⟨j', hj', hid'⟩
  have hsub : j' ∈ st.jobs := (List.filter_sublist st.jobs).subset hj'
  have : j' = j := List.inj_on_of_nodup_map hid hsub hj hid'
  exact hns (this ▸ hj')

/-- A job that the purge `SELECT` does not return survives both purge
implementations. -/
theorem purge_keeps_unselected (thr : Nat) (rm : AudioPath → Bool)
    (st : PurgeState) (j : Job)
    (hid : (st.jobs.map Job.id).Nodup) (hj : j ∈ st.jobs)
    (hns : j ∉ purgeSelected thr st.jobs) :
    j ∈ (workerPurge rm thr st).jobs ∧ j ∈ (appPurge rm thr st).state.jobs := by
  have hidsel := id_not_in_selected thr st j hid hj hns
  constructor
  · by_cases hab : (workerPurgeLoop rm (purgeSelected thr st.jobs) st.files []).2.2 = true
    · simp [workerPurge, hab, hj]
    · have hab' : (workerPurgeLoop rm (purgeSelected thr st.jobs) st.files []).2.2 = false :=
        Bool.eq_false_iff.mpr hab
      simp only [workerPurge, hab', Bool.false_eq_true, if_false]
      refine List.mem_filter.mpr ⟨hj, ?_⟩
      rw [decide_eq_true_eq]
      intro hmem
      rcases workerPurgeLoop_deleted_sub rm (purgeSelected thr st.jobs) st.files []
          j.id hmem with h | h
      · exact List.not_mem_nil j.id h
      · exact hidsel h
  · rw [appPurge_jobs_eq]
    exact List.mem_filter.mpr ⟨hj, by rw [decide_eq_true_eq]; exact hidsel⟩

/-- Claim C8.  The retention purge selects exactly the terminal jobs with a
sufficiently old non-`NULL` `finished_at`; a pending job is never selected
nor deleted by either implementation; nothing outside the selection is ever
deleted; and when no selected job's on-disk artifact fails removal — in
particular when artifacts are simply missing — every selected record is
deleted. -/
theorem C8_purge (thr : Nat) (rm : AudioPath → Bool) (st : PurgeState)
    (hid : (st.jobs.map Job.id).Nodup)
    (hfiles : ∀ j ∈ purgeSelected thr st.jobs, ∀ p, j.audio_file = some p →
        p ∈ st.files → rm p = true) :
    (∀ j, j ∈ purgeSelected thr st.jobs ↔
        j ∈ st.jobs ∧ (j.status = Status.complete ∨ j.status = Status.error)
          ∧ ∃ t, j.finished_at = some t ∧ t ≤ thr)
  ∧ (∀ j ∈ st.jobs, j.status = Status.pending →
        j ∉ purgeSelected thr st.jobs
      ∧ j ∈ (workerPurge rm thr st).jobs
      ∧ j ∈ (appPurge rm thr st).state.jobs)
  ∧ (∀ j ∈ st.jobs, j ∉ (workerPurge rm thr st).jobs → j ∈ purgeSelected thr st.jobs)
  ∧ (∀ j ∈ st.jobs, j ∉ (appPurge rm thr st).state.jobs → j ∈ purgeSelected thr st.jobs)
  ∧ (∀ j ∈ purgeSelected thr st.jobs,
        j ∉ (workerPurge rm thr st).jobs ∧ j ∉ (appPurge rm thr st).state.jobs) := by
  have hloop := workerPurgeLoop_ok rm (purgeSelected thr st.jobs) st.files [] hfiles
  have hworker : (workerPurge rm thr st).jobs =
      st.jobs.filter (fun j =>
        decide (j.id ∉ (purgeSelected thr st.jobs).map Job.id)) := by
    simp only [workerPurge, hloop.1, Bool.false_eq_true, if_false]
    rw [hloop.2]
    simp
  refine ⟨fun j => mem_purgeSelected thr st.jobs j, ?_, ?_, ?_, ?_⟩
  · intro j hj hpend
    have hns : j ∉ purgeSelected thr st.jobs := by
      rw [mem_purgeSelected]
      rintro ⟨-, hterm | hterm, -⟩ <;> rw [hpend] at hterm <;> exact Status.noConfusion hterm
    exact ⟨hns, (purge_keeps_unselected thr rm st j hid hj hns).1,
      (purge_keeps_unselected thr rm st j hid hj hns).2⟩
  · intro j hj hout
    by_contra hns
    exact hout (purge_keeps_unselected thr rm st j hid hj hns).1
  · intro j hj hout
    by_contra hns
    exact hout (purge_keeps_unselected thr rm st j hid hj hns).2
  · intro j hjsel
    have hidin : j.id ∈ (purgeSelected thr st.jobs).map Job.id :=
      List.mem_map.mpr ⟨j, hjsel, rfl⟩
    constructor
    · rw [hworker]
      intro hmem
      have := (List.mem_filter.mp hmem).2
      rw [decide_eq_true_eq] at this
      exact this hidin
    · rw [appPurge_jobs_eq]
      intro hmem
      have := (List.mem_filter.mp hmem).2
      rw [decide_eq_true_eq] at this
      exact this hidin

/-- Witness for C8: an old pending job survives both purges while the old
terminal job is deleted. -/
theorem C8_purge_witness :
    ((c8st.jobs.map Job.id).Nodup
  ∧ (∀ j ∈ purgeSelected 100 c8st.jobs, ∀ p, j.audio_file = some p →
        p ∈ c8st.files → removeWorks p = true))
  ∧ c8pending ∈ (workerPurge removeWorks 100 c8st).jobs
  ∧ c6job1 ∉ (workerPurge removeWorks 100 c8st).jobs := by
  refine ⟨⟨by decide, by decide⟩, ?_, ?_⟩
  · exact ((C8_purge 100 removeWorks c8st (by decide) (by decide)).2.1 c8pending
      (by decide) rfl).2.1
  · exact ((C8_purge 100 removeWorks c8st (by decide) (by decide)).2.2.2.2 c6job1
      (by decide)).1

/-- Claim C3.  A job the worker marks `error` keeps `finished_at = NULL`
(the error-path `UPDATE` writes only the status), so the purge `SELECT`
— which requires `finished_at <= threshold` — never returns it and neither
purge implementation ever deletes its record, whatever the threshold. -/
theorem C3_error_jobs_never_purged (oracle : EngineKind → List Char → SynthOutcome)
    (now : Nat) (job : Job) (e : ExcKind) (st : PurgeState) (thr : Nat)
    (rm : AudioPath → Bool)
    (hfail : (synthesizeText EngineKind.gpu oracle job.guid job.transcription).2 = some e)
    (hfin : job.finished_at = none)
    (hid : (st.jobs.map Job.id).Nodup)
    (hmem : (processJob oracle (some EngineKind.gpu) now job).1 ∈ st.jobs) :
    (processJob oracle (some EngineKind.gpu) now job).1.status = Status.error
  ∧ (processJob oracle (some EngineKind.gpu) now job).1.finished_at = none
  ∧ (processJob oracle (some EngineKind.gpu) now job).1 ∉ purgeSelected thr st.jobs
  ∧ (processJob oracle (some EngineKind.gpu) now job).1 ∈ (workerPurge rm thr st).jobs
  ∧ (processJob oracle (some EngineKind.gpu) now job).1 ∈ (appPurge rm thr st).state.jobs := by
  have hgi : getInstance (some EngineKind.gpu)
      = (EngineKind.gpu, some EngineKind.gpu, []) := rfl
  have hstat : (processJob oracle (some EngineKind.gpu) now job).1.status = Status.error := by
    simp [processJob, hgi, hfail]
  have hfin' : (processJob oracle (some EngineKind.gpu) now job).1.finished_at = none := by
    simp [processJob, hgi, hfail, hfin]
  have hns : (processJob oracle (some EngineKind.gpu) now job).1 ∉ purgeSelected thr st.jobs := by
    rw [mem_purgeSelected]
    rintro ⟨-, -, t, ht, -⟩
    rw [hfin'] at ht
    exact Option.noConfusion ht
  exact ⟨hstat, hfin', hns,
    (purge_keeps_unselected thr rm st _ hid hmem hns).1,
    (purge_keeps_unselected thr rm st _ hid hmem hns).2⟩

/-- Witness for C3: the concrete failed job sits in a store next to an old
complete job; the purge deletes neither copy of it however old the store. -/
theorem C3_witness :
    (synthesizeText EngineKind.gpu errOracle c2job.guid c2job.transcription).2
        = some ExcKind.engineError
  ∧ (processJob errOracle (some EngineKind.gpu) 7 c2job).1
        ∈ (workerPurge removeWorks 1000000 ⟨[(processJob errOracle (some EngineKind.gpu) 7 c2job).1, c6job1], [AudioPath.final "a"]⟩).jobs := by
  refine ⟨by decide, ?_⟩
  exact (C3_error_jobs_never_purged errOracle 7 c2job ExcKind.engineError
      ⟨[(processJob errOracle (some EngineKind.gpu) 7 c2job).1, c6job1], [AudioPath.final "a"]⟩
      1000000 removeWorks (by decide) (by decide) (by decide) (by decide)).2.2.2.1

/-- Claim C6 (amended).  In the API-layer purge a file-deletion failure is
counted and does not block that job's record deletion nor the remaining
selected jobs — every selected record is always deleted.  In the worker's
scheduled purge, however, a file-deletion failure aborts the batch before
the commit: no selected record at all is deleted. -/
theorem C6_amended (rm : AudioPath → Bool) (thr : Nat) (st : PurgeState)
    (habort : (workerPurgeLoop rm (purgeSelected thr st.jobs) st.files []).2.2 = true) :
    (appPurge rm thr st).state.jobs =
      st.jobs.filter (fun j =>
        decide (j.id ∉ (purgeSelected thr st.jobs).map Job.id))
  ∧ (appPurge rm thr st).purged = (purgeSelected thr st.jobs).length
  ∧ (workerPurge rm thr st).jobs = st.jobs := by
  refine ⟨appPurge_jobs_eq rm thr st, ?_, ?_⟩
  · simp only [appPurge]
    rw [appPurgeLoop_deleted rm (purgeSelected thr st.jobs) st.files [] 0]
    simp
  · simp [workerPurge, habort]

/-- Witness for the amended C6: a failing artifact removal aborts the worker
purge while the app purge still deletes both selected records. -/
theorem C6_amended_witness :
    (workerPurgeLoop removeFails (purgeSelected 10 c6st.jobs) c6st.files []).2.2 = true
  ∧ (workerPurge removeFails 10 c6st).jobs = c6st.jobs
  ∧ (appPurge removeFails 10 c6st).purged = 2 := by
  refine ⟨by decide, (C6_amended removeFails 10 c6st (by decide)).2.2, ?_⟩
  rw [(C6_amended removeFails 10 c6st (by decide)).2.1]
  decide

/-! ## Submission lemmas and claim C4 -/

/-- The store-level `UNIQUE` constraint: an insert that goes through
preserves pairwise-distinct guids. -/
theorem dbInsert_nodup (jobs : List Job) (nid : Nat) (guid : String)
    (tr : List Char) (jobs' : List Job)
    (h : dbInsert jobs nid guid tr = some jobs')
    (hnd : (jobs.map Job.guid).Nodup) : (jobs'.map Job.guid).Nodup := by
  by_cases hany : jobs.any (fun j => j.guid == guid) = true
  · simp [dbInsert, hany] at h
  · have hany' : jobs.any (fun j => j.guid == guid) = false :=
      Bool.eq_false_iff.mpr hany
    simp only [dbInsert, hany', Bool.false_eq_true, if_false, Option.some.injEq] at h
    subst h
    rw [List.map_append, List.nodup_append]
    refine ⟨hnd, List.nodup_singleton guid, ?_⟩
    intro g hg hg'
    simp only [List.map_cons, List.map_nil, List.mem_singleton] at hg'
    subst hg'
    rcases List.mem_map.mp hg with ⟨j, hj, hjg⟩
    have hno := List.any_eq_false.mp hany' j hj
    rw [hjg] at hno
    exact hno (beq_self_eq_true g)

/-- A well-formed submission whose guid is already present is answered 409
by the pre-check, with the store unchanged. -/
theorem submitSermon_dup (jobs : List Job) (nid : Nat) (guid : String)
    (tr : List Char) (hg : guid.isEmpty = false) (ht : tr.isEmpty = false)
    (hdup : jobs.any (fun j => j.guid == guid) = true) :
    submitSermon jobs nid guid tr = (jobs, SubmitResp.conflict409) := by
  simp only [submitSermon, hg, ht, Bool.or_self, Bool.false_eq_true, if_false,
    hdup, if_true]

/-- Claim C4 (amended).  The store's `UNIQUE` index keeps at most one record
per guid at all times.  A duplicate create that runs after the first has
committed is caught by the application pre-check and answered 409 with the
store unchanged.  A duplicate create racing past the pre-check is rejected
by the store's uniqueness constraint — exactly one record exists afterwards —
but the raised `IntegrityError` is surfaced by the generic handler as 500,
not 409. -/
theorem C4_amended (jobs0 : List Job) (nid : Nat) (guid : String)
    (trA trB : List Char)
    (hg : guid.isEmpty = false) (ha : trA.isEmpty = false) (hb : trB.isEmpty = false)
    (hnew : jobs0.any (fun j => j.guid == guid) = false)
    (hnd : (jobs0.map Job.guid).Nodup) :
    (submitSermon jobs0 nid guid trA).2 = SubmitResp.created201
  ∧ (submitSermon (submitSermon jobs0 nid guid trA).1 (nid + 1) guid trB).2
        = SubmitResp.conflict409
  ∧ (submitSermon (submitSermon jobs0 nid guid trA).1 (nid + 1) guid trB).1
        = (submitSermon jobs0 nid guid trA).1
  ∧ (submitRace jobs0 nid guid trA trB).2.1 = SubmitResp.created201
  ∧ (submitRace jobs0 nid guid trA trB).2.2 = SubmitResp.error500
  ∧ ((submitRace jobs0 nid guid trA trB).1.filter (fun j => j.guid == guid)).length = 1
  ∧ ((submitRace jobs0 nid guid trA trB).1.map Job.guid).Nodup
  ∧ (∀ (jobs : List Job) (n : Nat) (g : String) (tr : List Char) (jobs' : List Job),
        dbInsert jobs n g tr = some jobs' →
        (jobs.map Job.guid).Nodup → (jobs'.map Job.guid).Nodup) := by
  have hfilter0 : jobs0.filter (fun j => j.guid == guid) = [] :=
    List.filter_eq_nil_iff.mpr (List.any_eq_false.mp hnew)
  have hstep1 : submitSermon jobs0 nid guid trA =
      (jobs0 ++ [{ id := nid, guid := guid, transcription := trA,
                   status := Status.pending, audio_file := none,
                   finished_at := none, created_at := 0 }], SubmitResp.created201) := by
    simp [submitSermon, dbInsert, hg, ha, hnew]
  have hany1 : (submitSermon jobs0 nid guid trA).1.any (fun j => j.guid == guid) = true := by
    rw [hstep1]
    simp
  have hnd1 : ((submitSermon jobs0 nid guid trA).1.map Job.guid).Nodup := by
    refine dbInsert_nodup jobs0 nid guid trA _ ?_ hnd
    rw [hstep1]
    simp [dbInsert, hnew]
  have hrace : submitRace jobs0 nid guid trA trB =
      ((submitSermon jobs0 nid guid trA).1, SubmitResp.created201, SubmitResp.error500) := by
    rw [hstep1]
    simp [submitRace, dbInsert, hg, ha, hb, hnew]
  refine ⟨by rw [hstep1], ?_, ?_, ?_, ?_, ?_, ?_, dbInsert_nodup⟩
  · rw [submitSermon_dup _ _ _ _ hg hb hany1]
  · rw [submitSermon_dup _ _ _ _ hg hb hany1]
  · rw [hrace]
  · rw [hrace]
  · rw [hrace, hstep1]
    simp [List.filter_append, hfilter0]
  · rw [hrace]
    exact hnd1

/-- Witness for the amended C4 starting from an empty table. -/
theorem C4_amended_witness :
    ("g1".isEmpty = false ∧ holaText.isEmpty = false
      ∧ (([] : List Job).any (fun j => j.guid == "g1") = false)
      ∧ ((([] : List Job).map Job.guid).Nodup))
  ∧ (submitRace [] 1 "g1" holaText holaText).2.2 = SubmitResp.error500
  ∧ ((submitRace [] 1 "g1" holaText holaText).1.filter
        (fun j => j.guid == "g1")).length = 1 := by
  refine ⟨⟨by decide, by decide, by decide, by decide⟩, ?_, ?_⟩
  · exact (C4_amended [] 1 "g1" holaText holaText (by decide) (by decide) (by decide)
      (by decide) (by decide)).2.2.2.2.1
  · exact (C4_amended [] 1 "g1" holaText holaText (by decide) (by decide) (by decide)
      (by decide) (by decide)).2.2.2.2.2.1

end SermonTTS
